import Mathlib

/-
  Shallow embedding of the COVID-19 data-aggregation core (src/main.py).

  Python dictionaries are modelled as association lists (insertion-ordered,
  unique keys under the provided update operations).  Calendar dates are
  modelled as natural numbers (dates are totally ordered and only their
  order is used).  Python float arithmetic on these integer inputs is exact,
  so it is modelled with `Rat`.  A Python function that can raise an
  exception is modelled with `Option` (`none` = the call raises).
-/

namespace Covid

/-- Mirror of `DataElement` (main.py lines 30-51): data for a day in a
country/region. -/
structure DataElement where
  confirmed : Int
  deaths : Int
  recovered : Int
deriving DecidableEq

/-- Mirror of `DataElement.add`: field-wise accumulation (the Python method
mutates the receiver; here the updated value is returned). -/
def DataElement.add (a other : DataElement) : DataElement :=
  ⟨a.confirmed + other.confirmed, a.deaths + other.deaths,
   a.recovered + other.recovered⟩

/-- Mirror of `CountryData` (main.py lines 54-64): the day-to-element
dictionary and the country name. -/
structure CountryData where
  name : String
  data : List (Nat × DataElement)
deriving DecidableEq

/-- Mirror of `CountryData.add` (main.py lines 66-76): insert a fresh
`DataElement()` when the day is absent, then accumulate `element` into the
stored entry. -/
def CountryData.add (c : CountryData) (time : Nat) (element : DataElement) :
    CountryData :=
  if c.data.any (fun kv => kv.1 == time) then
    ⟨c.name, c.data.map
      (fun kv => if kv.1 == time then (kv.1, kv.2.add element) else kv)⟩
  else
    ⟨c.name, c.data ++ [(time, (DataElement.mk 0 0 0).add element)]⟩

/-- Dictionary access `self.data[time]` for a key known to be present. -/
def CountryData.dayData (c : CountryData) (time : Nat) : DataElement :=
  ((c.data.find? (fun kv => kv.1 == time)).map Prod.snd).getD ⟨0, 0, 0⟩

/-- The expression `sorted(self.data.keys())` used throughout `CountryData`. -/
def CountryData.sortedKeys (c : CountryData) : List Nat :=
  List.insertionSort (· ≤ ·) (c.data.map Prod.fst)

/-- The chronological cumulative confirmed-count series of a country:
`self.data[time].confirmed` for `time` in `sorted(self.data.keys())`. -/
def CountryData.confirmedSeries (c : CountryData) : List Int :=
  c.sortedKeys.map (fun t => (c.dayData t).confirmed)

/-- Mirror of `CountryData.get_last` (main.py lines 78-82):
`self.data[sorted(self.data.keys())[-1]]`.  On an empty dictionary the
Python indexing `[-1]` raises `IndexError`, modelled by `none`. -/
def CountryData.get_last (c : CountryData) : Option DataElement :=
  c.sortedKeys.getLast?.map c.dayData

/-- Python list slicing `l[start:stop]` for a non-negative `start` and an
arbitrary (possibly negative) `stop`: a negative `stop` counts from the end
of the list, and out-of-range bounds are clamped. -/
def pySlice {α : Type} (l : List α) (start : Nat) (stop : Int) : List α :=
  let stopN : Nat :=
    if stop < 0 then ((l.length : Int) + stop).toNat
    else min stop.toNat l.length
  (l.take stopN).drop start

/-- Mirror of the `y_data` loop of `get_data` (main.py lines 104-107):
running differences against the previous value, starting from `last`. -/
def deltasFrom (last : Int) : List Int → List Int
  | [] => []
  | v :: rest => (v - last) :: deltasFrom v rest

/-- Mirror of the `first_100_index` loop of `get_data` (main.py
lines 95-99): count values until the first one strictly above 100. -/
def first100Index : List Int → Nat
  | [] => 0
  | v :: rest => if 100 < v then 0 else first100Index rest + 1

/-- Mirror of `CountryData.get_data` (main.py lines 84-119).  The `average`
parameter is an arbitrary Python integer.  When `average = -1` the smoothing
loop divides by `average + 1 = 0` on its first iteration (the loop range
`len(y_data) - average = n + 1` is never empty), raising
`ZeroDivisionError`, modelled by `none`.  Otherwise the pair
`(x_data, y_average)` is returned. -/
def CountryData.get_data (c : CountryData) (average : Int) :
    Option (List Int × List Rat) :=
  let series := c.confirmedSeries
  let xData : List Int :=
    (List.range ((c.data.length : Int) - average).toNat).map
      (fun (i : Nat) => (i : Int) - (first100Index series : Int))
  let yData : List Int := deltasFrom 0 series
  if average = -1 then none
  else
    let yAverage : List Rat :=
      (List.range ((yData.length : Int) - average).toNat).map
        (fun (i : Nat) =>
          (((pySlice yData i ((i : Int) + average + 1)).sum : Int) : Rat) /
            ((average : Rat) + 1))
    some (xData, yAverage)

/-- Mirror of the `ALIASES` table (main.py lines 13-25). -/
def ALIASES : List (String × String) :=
  [("Bahamas, The", "Bahamas"),
   ("Czechia", "Czech Republic"),
   ("Russian Federation", "Russia"),
   ("Iran (Islamic Republic of)", "Iran"),
   ("Mainland China", "China"),
   ("Republic of Korea", "South Korea"),
   ("Republic of Moldova", "Moldova"),
   ("Korea, South", "South Korea"),
   ("Taiwan*", "Taiwan"),
   ("UK", "United Kingdom"),
   ("US", "United States")]

/-- The lookup `ALIASES[country]` guarded by `country in ALIASES`. -/
def aliasLookup (s : String) : Option String :=
  (ALIASES.find? (fun kv => kv.1 == s)).map Prod.snd

/-- Python `str.strip()` on the underlying character list: remove leading
and trailing whitespace characters. -/
def pyStrip (l : List Char) : List Char :=
  ((l.dropWhile Char.isWhitespace).reverse.dropWhile Char.isWhitespace).reverse

/-- Python `str.strip()`. -/
def strip (s : String) : String :=
  String.mk (pyStrip s.toList)

/-- The region-name canonicalization of ingestion (main.py lines 144-148):
`country = find_key(...).strip(); if country in ALIASES: country =
ALIASES[country]`. -/
def canon (s : String) : String :=
  match aliasLookup (strip s) with
  | some v => v
  | none => strip s

/-- Mirror of `Data` (main.py lines 122-128): the country-name dictionary,
in insertion order. -/
structure Data where
  data : List (String × CountryData)
deriving DecidableEq

/-- Mirror of `Data.add` (main.py lines 164-174): create the `CountryData`
on first sighting of the name, then delegate to `CountryData.add`. -/
def Data.add (d : Data) (country : String) (time : Nat)
    (element : DataElement) : Data :=
  if d.data.any (fun kv => kv.1 == country) then
    ⟨d.data.map
      (fun kv =>
        if kv.1 == country then (kv.1, kv.2.add time element) else kv)⟩
  else
    ⟨d.data ++ [(country, (CountryData.mk country []).add time element)]⟩

/-- The latest cumulative confirmed count of a country, the quantity
`x.get_last().confirmed` used as ranking key (defaulting to 0 on the empty
series, which `Data.get_countries` rules out before sorting). -/
def latestConfirmed (c : CountryData) : Int :=
  ((c.get_last).map DataElement.confirmed).getD 0

/-- Mirror of `Data.get_countries` (main.py lines 176-180):
`sorted(self.data.values(), key=lambda x: -x.get_last().confirmed)`.
CPython's `sorted` evaluates the key on every element (raising `IndexError`
as soon as one series is empty, modelled by `none`) and then performs a
stable ascending sort, modelled by `List.insertionSort`. -/
def Data.get_countries (d : Data) : Option (List CountryData) :=
  if d.data.all (fun kv => !kv.2.data.isEmpty) then
    some (List.insertionSort
      (fun a b => -(latestConfirmed a) ≤ -(latestConfirmed b))
      (d.data.map Prod.snd))
  else none

/-- Python dictionary lookup `row[k]` on the per-row dictionary built from
the CSV header and fields (main.py lines 140-143); with duplicate header
names the later binding wins, hence the reverse search.  `none` models
`KeyError`. -/
def pyDictGet (row : List (String × String)) (k : String) : Option String :=
  (row.reverse.find? (fun kv => kv.1 == k)).map Prod.snd

/-- Mirror of `find_key` (main.py lines 183-194): return the value of the
first key present in the dictionary, `None` if none is. -/
def find_key (row : List (String × String)) : List String → Option String
  | [] => none
  | k :: rest =>
    match pyDictGet row k with
    | some v => some v
    | none => find_key row rest

/-- Model of Python `int(s)` on a decoded CSV field. -/
def pyInt (s : String) : Option Int :=
  s.toInt?

/-- The field computation `int(row[k]) if row[k] else 0` used for the
Confirmed/Deaths/Recovered columns (main.py lines 149-154): `none` when the
key is absent (`KeyError`) or the non-blank value fails to parse; a blank
value is falsy and yields 0. -/
def fieldValue (row : List (String × String)) (k : String) : Option Int :=
  match pyDictGet row k with
  | none => none
  | some s => if s == "" then some 0 else pyInt s

/-- The `DataElement(confirmed, deaths, recovered)` built from one raw row
(main.py lines 149-156). -/
def rowElement (row : List (String × String)) : Option DataElement :=
  match fieldValue row "Confirmed", fieldValue row "Deaths",
      fieldValue row "Recovered" with
  | some a, some b, some c => some ⟨a, b, c⟩
  | _, _, _ => none

/-- Ingestion of one raw row into the dataset (main.py lines 140-156):
resolve the region-name column, canonicalize the name, build the element,
and route it through `Data.add`.  `none` models any exception raised on the
row (`AttributeError` on a missing region column, `KeyError` on a missing
count column, `ValueError` on an unparsable count). -/
def ingestRow (d : Data) (day : Nat) (row : List (String × String)) :
    Option Data :=
  match find_key row ["Country/Region", "Country_Region"] with
  | none => none
  | some raw =>
    match rowElement row with
    | none => none
    | some e => some (d.add (canon raw) day e)

/-- A 5-day example region whose cumulative confirmed counts are
`[0, 50, 80, 120, 200]` (built through `CountryData.add` as ingestion
would). -/
def exampleSeries : CountryData :=
  ((((((CountryData.mk "E" []).add 0 ⟨0, 0, 0⟩).add 1 ⟨50, 0, 0⟩).add 2
    ⟨80, 0, 0⟩).add 3 ⟨120, 0, 0⟩).add 4 ⟨200, 0, 0⟩)

/-- A 3-day example region whose cumulative confirmed counts never exceed
100. -/
def lowSeries : CountryData :=
  (((CountryData.mk "L" []).add 0 ⟨10, 0, 0⟩).add 1 ⟨20, 0, 0⟩).add 2
    ⟨30, 0, 0⟩

/-- A 3-day example region with a downward data correction: cumulative
confirmed counts `[10, 120, 90]`. -/
def correctionSeries : CountryData :=
  (((CountryData.mk "D" []).add 0 ⟨10, 0, 0⟩).add 1 ⟨120, 0, 0⟩).add 2
    ⟨90, 0, 0⟩

/-- The three-region ranking scenario of the spec: latest confirmed counts
500, 10000 and 42, ingested in that order. -/
def scenarioData : Data :=
  (((Data.mk []).add "A" 0 ⟨500, 0, 0⟩).add "B" 0 ⟨10000, 0, 0⟩).add "C" 0
    ⟨42, 0, 0⟩

/-- A two-region dataset whose regions tie on the latest confirmed
count. -/
def tieData : Data :=
  ((Data.mk []).add "P" 0 ⟨7, 0, 0⟩).add "Q" 0 ⟨7, 0, 0⟩

instance :
    IsTotal CountryData
      (fun a b => -(latestConfirmed a) ≤ -(latestConfirmed b)) :=
  ⟨fun a b => le_total _ _⟩

instance :
    IsTrans CountryData
      (fun a b => -(latestConfirmed a) ≤ -(latestConfirmed b)) :=
  ⟨fun _ _ _ h h2 => le_trans h h2⟩

end Covid

namespace Covid

lemma confirmedSeries_length (c : CountryData) :
    c.confirmedSeries.length = c.data.length := by
  simp [CountryData.confirmedSeries, CountryData.sortedKeys,
    List.length_insertionSort]

lemma deltasFrom_length (a : Int) (l : List Int) :
    (deltasFrom a l).length = l.length := by
  induction l generalizing a with
  | nil => rfl
  | cons v rest ih => simp [deltasFrom, ih]

lemma first100Index_le_length (l : List Int) : first100Index l ≤ l.length := by
  induction l with
  | nil => simp [first100Index]
  | cons v rest ih =>
    simp only [first100Index, List.length_cons]
    split
    · omega
    · omega

lemma first100Index_before (l : List Int) (j : Nat)
    (hj : j < first100Index l) : l.getD j 0 ≤ 100 := by
  induction l generalizing j with
  | nil => simp [first100Index] at hj
  | cons v rest ih =>
    simp only [first100Index] at hj
    split at hj
    · omega
    · cases j with
      | zero => simpa using by omega
      | succ j => exact ih j (by omega)

lemma first100Index_at (l : List Int)
    (h : first100Index l < l.length) : 100 < l.getD (first100Index l) 0 := by
  induction l with
  | nil => simp at h
  | cons v rest ih =>
    by_cases h100 : 100 < v
    · simp [first100Index, h100]
    · simp only [first100Index, if_neg h100, List.length_cons] at h ⊢
      simpa using ih (by omega)

lemma first100Index_eq_length (l : List Int)
    (h : ∀ v ∈ l, v ≤ 100) : first100Index l = l.length := by
  induction l with
  | nil => rfl
  | cons v rest ih =>
    have hv : v ≤ 100 := h v (by simp)
    simp only [first100Index, List.length_cons]
    rw [if_neg (by omega)]
    rw [ih (fun u hu => h u (by simp [hu]))]

lemma pySlice_natCast {α : Type} (l : List α) (i s : Nat) :
    pySlice l i (s : Int) = (l.drop i).take (min s l.length - i) := by
  simp only [pySlice]
  rw [if_neg (by omega)]
  have hs : (s : Int).toNat = s := rfl
  rw [hs, List.drop_take]

lemma drop_take_one {α : Type} [Inhabited α] (l : List α) (i : Nat)
    (hi : i < l.length) : (l.drop i).take 1 = [l.getD i default] := by
  induction l generalizing i with
  | nil => simp at hi
  | cons a t ih =>
    cases i with
    | zero => simp
    | succ i => simpa using ih i (by simpa using hi)

lemma pySlice_singleton (l : List Int) (i : Nat) (hi : i < l.length) :
    pySlice l i ((i : Int) + 1) = [l.getD i 0] := by
  have h1 : ((i : Int) + 1) = ((i + 1 : Nat) : Int) := by push_cast; ring
  rw [h1, pySlice_natCast]
  have h2 : min (i + 1) l.length - i = 1 := by omega
  rw [h2]
  exact drop_take_one l i hi

lemma deltasFrom_take_sum (l : List Int) (a : Int) (i : Nat)
    (hi : i < l.length) :
    ((deltasFrom a l).take (i + 1)).sum = l.getD i 0 - a := by
  induction l generalizing a i with
  | nil => simp at hi
  | cons v rest ih =>
    cases i with
    | zero => simp [deltasFrom]
    | succ i =>
      have := ih v i (by simpa using hi)
      simp only [deltasFrom, List.take_succ_cons, List.sum_cons, this,
        List.getD_cons_succ]
      omega

lemma deltasFrom_getD (l : List Int) (a : Int) (j : Nat)
    (hj : j < l.length) :
    (deltasFrom a l).getD j 0 =
      l.getD j 0 - (if j = 0 then a else l.getD (j - 1) 0) := by
  induction l generalizing a j with
  | nil => simp at hj
  | cons v rest ih =>
    cases j with
    | zero => simp [deltasFrom]
    | succ j =>
      have := ih v j (by simpa using hj)
      simp only [deltasFrom, List.getD_cons_succ, this]
      cases j with
      | zero => simp
      | succ j => simp

lemma range_map_getD {β : Type} (l : List Int) (g : Int → β) :
    (List.range l.length).map (fun i => g (l.getD i 0)) = l.map g := by
  apply List.ext_getElem
  · simp
  · intro i h1 h2
    simp only [List.getElem_map, List.getElem_range]
    congr 1
    simp only [List.length_map, List.length_range] at h1 h2
    rw [List.getD_eq_getElem l 0 h2]

/-- Reduction of `get_data` at a non-negative smoothing window. -/
lemma get_data_nat (c : CountryData) (w : Nat) :
    c.get_data (w : Int) =
      some ((List.range (c.data.length - w)).map
          (fun (i : Nat) => (i : Int) - (first100Index c.confirmedSeries : Int)),
        (List.range (c.data.length - w)).map
          (fun (i : Nat) =>
            (((pySlice (deltasFrom 0 c.confirmedSeries) i
                ((i : Int) + w + 1)).sum : Int) : Rat) / ((w : Rat) + 1))) := by
  rw [CountryData.get_data]
  rw [if_neg (by omega)]
  have hlen : (deltasFrom 0 c.confirmedSeries).length = c.data.length := by
    rw [deltasFrom_length, confirmedSeries_length]
  rw [hlen]
  have htn : ((c.data.length : Int) - (w : Int)).toNat = c.data.length - w := by
    omega
  rw [htn]
  have hcast : (((w : Int) : Rat) + 1) = ((w : Rat) + 1) := by push_cast; ring
  rw [hcast]

/-- Reduction of `get_data` at window 0: the offsets and the raw daily
deltas. -/
lemma get_data_zero (c : CountryData) :
    c.get_data 0 =
      some ((List.range c.data.length).map
          (fun (i : Nat) => (i : Int) - (first100Index c.confirmedSeries : Int)),
        (deltasFrom 0 c.confirmedSeries).map (fun d => ((d : Int) : Rat))) := by
  have h0 : ((0 : Nat) : Int) = (0 : Int) := rfl
  rw [← h0, get_data_nat]
  have hlen : (deltasFrom 0 c.confirmedSeries).length = c.data.length := by
    rw [deltasFrom_length, confirmedSeries_length]
  apply congrArg some
  apply Prod.ext
  · simp
  · show (List.range (c.data.length - 0)).map _
        = (deltasFrom 0 c.confirmedSeries).map _
    rw [Nat.sub_zero, ← hlen, ← range_map_getD (deltasFrom 0 c.confirmedSeries)
      (fun d => ((d : Int) : Rat))]
    apply List.map_congr_left
    intro i hi
    simp only [List.mem_range] at hi
    have hstop : ((i : Int) + ((0 : Nat) : Int) + 1) = ((i : Int) + 1) := by
      push_cast
      ring
    rw [hstop, pySlice_singleton _ i (by omega)]
    simp

/-- Claim C1: for every non-empty region series, the offsets returned by
`get_data` are `i - e` for consecutive `i`, where `e` is the smallest index
of the chronological confirmed series whose value is strictly greater
than 100, and `e = n` when no such index exists. -/
theorem epoch_alignment (c : CountryData) (h : c.data ≠ []) :
    ∃ x y, c.get_data 0 = some (x, y) ∧
      x = (List.range c.data.length).map
        (fun (i : Nat) => (i : Int) - (first100Index c.confirmedSeries : Int)) ∧
      (∀ j, j < first100Index c.confirmedSeries →
        c.confirmedSeries.getD j 0 ≤ 100) ∧
      (first100Index c.confirmedSeries < c.data.length →
        100 < c.confirmedSeries.getD (first100Index c.confirmedSeries) 0) ∧
      first100Index c.confirmedSeries ≤ c.data.length ∧
      ((∀ v ∈ c.confirmedSeries, v ≤ 100) →
        first100Index c.confirmedSeries = c.data.length) := by
  refine ⟨_, _, get_data_zero c, rfl, ?_, ?_, ?_, ?_⟩
  · exact fun j hj => first100Index_before _ j hj
  · intro hlt
    exact first100Index_at _ (by rwa [confirmedSeries_length])
  · have h2 := first100Index_le_length c.confirmedSeries
    rwa [confirmedSeries_length] at h2
  · intro hall
    have h2 := first100Index_eq_length _ hall
    rwa [confirmedSeries_length] at h2

/-- Instantiation of C1 on the spec's 5-day example (offsets
`[-3, -2, -1, 0, 1]`) and on a series that never crosses the threshold
(offsets `[-3, -2, -1]`). -/
theorem epoch_alignment_witness :
    exampleSeries.get_data 0 =
      some ([-3, -2, -1, 0, 1], [0, 50, 30, 40, 80]) ∧
    lowSeries.get_data 0 = some ([-3, -2, -1], [10, 10, 10]) ∧
    (∃ x y, exampleSeries.get_data 0 = some (x, y) ∧
      x = (List.range exampleSeries.data.length).map
        (fun (i : Nat) => (i : Int) -
          (first100Index exampleSeries.confirmedSeries : Int))) := by
  refine ⟨by with_unfolding_all rfl, by with_unfolding_all rfl, ?_⟩
  obtain ⟨x, y, h1, h2, -⟩ := epoch_alignment exampleSeries (by decide)
  exact ⟨x, y, h1, h2⟩

/-- Claim C2: for every region series and every non-negative window `w`,
`get_data w` returns two sequences of equal length `max (n - w) 0`, and an
empty pair of sequences (not an error) when `w ≥ n`. -/
theorem smoothing_length_law (c : CountryData) (w : Nat) :
    ∃ x y, c.get_data (w : Int) = some (x, y) ∧
      x.length = y.length ∧
      (x.length : Int) = max ((c.data.length : Int) - (w : Int)) 0 ∧
      (c.data.length ≤ w → x = [] ∧ y = []) := by
  refine ⟨_, _, get_data_nat c w,
    by simp only [List.length_map, List.length_range], ?_, ?_⟩
  · simp only [List.length_map, List.length_range]
    omega
  · intro hle
    have h0 : c.data.length - w = 0 := by omega
    simp [h0]

/-- Instantiation of C2 at a 3-day series with window 5 (window larger than
the series: empty output, no error). -/
theorem smoothing_length_law_witness :
    ∃ x y, lowSeries.get_data ((5 : Nat) : Int) = some (x, y) ∧
      x.length = y.length ∧
      (x.length : Int) = max ((lowSeries.data.length : Int) - ((5 : Nat) : Int)) 0 ∧
      (lowSeries.data.length ≤ 5 → x = [] ∧ y = []) :=
  smoothing_length_law lowSeries 5

/-- Claim C3: for every region series, non-negative window `w ≤ n` and
index `i` with `i + w < n`, the `i`-th smoothed value of `get_data w` is
the arithmetic mean of the `w + 1` consecutive daily deltas
`delta[i..i+w]` (the window looks strictly ahead of `i`), where
`delta[j] = C[j] - C[j-1]` and `C[-1] = 0`. -/
theorem smoothing_forward_mean (c : CountryData) (w i : Nat)
    (hw : w ≤ c.data.length) (hi : i + w < c.data.length) :
    ∃ x y, c.get_data (w : Int) = some (x, y) ∧
      y[i]? = some
        (((((deltasFrom 0 c.confirmedSeries).drop i).take (w + 1)).sum : Rat) /
          ((w : Rat) + 1)) ∧
      (∀ j, j < c.data.length →
        (deltasFrom 0 c.confirmedSeries).getD j 0 =
          c.confirmedSeries.getD j 0 -
            (if j = 0 then 0 else c.confirmedSeries.getD (j - 1) 0)) := by
  refine ⟨_, _, get_data_nat c w, ?_, ?_⟩
  · rw [List.getElem?_map, List.getElem?_range (by omega : i < c.data.length - w)]
    have hlen : (deltasFrom 0 c.confirmedSeries).length = c.data.length := by
      rw [deltasFrom_length, confirmedSeries_length]
    have hstop : ((i : Int) + (w : Int) + 1) = (((i + w + 1 : Nat)) : Int) := by
      push_cast
      ring
    have key : pySlice (deltasFrom 0 c.confirmedSeries) i ((i : Int) + (w : Int) + 1)
        = ((deltasFrom 0 c.confirmedSeries).drop i).take (w + 1) := by
      rw [hstop, pySlice_natCast]
      have hmin : min (i + w + 1) (deltasFrom 0 c.confirmedSeries).length - i
          = w + 1 := by
        rw [hlen]
        omega
      rw [hmin]
    simp only [Option.map_some']
    rw [key]
  · intro j hj
    exact deltasFrom_getD _ 0 j (by rwa [confirmedSeries_length])

/-- Instantiation of C3 on the 5-day example with window 1 at index 2:
the value is the mean of deltas 2 and 3. -/
theorem smoothing_forward_mean_witness :
    exampleSeries.get_data ((1 : Nat) : Int) =
      some ([-3, -2, -1, 0], [25, 40, 35, 60]) ∧
    (∃ x y, exampleSeries.get_data ((1 : Nat) : Int) = some (x, y) ∧
      y[2]? = some
        (((((deltasFrom 0 exampleSeries.confirmedSeries).drop 2).take
          (1 + 1)).sum : Rat) / ((1 : Rat) + 1))) := by
  refine ⟨by with_unfolding_all rfl, ?_⟩
  obtain ⟨x, y, h1, h2, -⟩ :=
    smoothing_forward_mean exampleSeries 1 2 (by decide) (by decide)
  exact ⟨x, y, h1, by simpa using h2⟩

/-- Claim C7: summing the window-0 transform values (daily deltas) from
index 0 through `i` reproduces the cumulative confirmed count `C[i]`; the
first delta equals the first cumulative value, and a decrease in the
cumulative count yields a negative delta. -/
theorem delta_reconstruction (c : CountryData) (hne : c.data ≠ []) :
    ∃ x y, c.get_data 0 = some (x, y) ∧
      (∀ i, i < c.data.length →
        (y.take (i + 1)).sum = ((c.confirmedSeries.getD i 0 : Int) : Rat)) ∧
      y[0]? = some ((c.confirmedSeries.getD 0 0 : Int) : Rat) ∧
      (∀ i, 0 < i → i < c.data.length →
        c.confirmedSeries.getD i 0 < c.confirmedSeries.getD (i - 1) 0 →
        y.getD i 0 < 0) := by
  have hlen : (deltasFrom 0 c.confirmedSeries).length = c.data.length := by
    rw [deltasFrom_length, confirmedSeries_length]
  have hs : c.confirmedSeries.length = c.data.length := confirmedSeries_length c
  refine ⟨_, _, get_data_zero c, ?_, ?_, ?_⟩
  · intro i hi
    rw [← List.map_take, ← Int.cast_list_sum,
      deltasFrom_take_sum _ 0 i (by omega), sub_zero]
  · have h0 : 0 < c.data.length := by
      cases hd : c.data with
      | nil => exact absurd hd hne
      | cons a t => simp [hd]
    rw [List.getElem?_map]
    have hy : (deltasFrom 0 c.confirmedSeries)[0]? =
        some ((deltasFrom 0 c.confirmedSeries).getD 0 0) := by
      rw [List.getD_eq_getElem _ 0 (by omega), List.getElem?_eq_getElem (by omega)]
    rw [hy]
    simp only [Option.map_some']
    have hd0 := deltasFrom_getD c.confirmedSeries 0 0 (by omega)
    rw [hd0]
    simp
  · intro i h0 hi hdec
    have hgd : ((deltasFrom 0 c.confirmedSeries).map
        (fun d => ((d : Int) : Rat))).getD i 0 =
        (((deltasFrom 0 c.confirmedSeries).getD i 0 : Int) : Rat) := by
      rw [List.getD_eq_getElem _ 0 (by simpa [hlen] using hi),
        List.getElem_map, List.getD_eq_getElem _ 0 (by omega)]
    rw [hgd]
    have hd := deltasFrom_getD c.confirmedSeries 0 i (by omega)
    rw [if_neg (by omega)] at hd
    rw [hd]
    have : c.confirmedSeries.getD i 0 - c.confirmedSeries.getD (i - 1) 0 < 0 := by
      omega
    exact_mod_cast this

/-- Instantiation of C7 on a series with a data correction (cumulative
counts `[10, 120, 90]`): partial delta sums reproduce the counts and the
day-2 delta is negative. -/
theorem delta_reconstruction_witness :
    correctionSeries.get_data 0 = some ([-1, 0, 1], [10, 110, -30]) ∧
    (∃ x y, correctionSeries.get_data 0 = some (x, y) ∧
      (∀ i, i < correctionSeries.data.length →
        (y.take (i + 1)).sum =
          ((correctionSeries.confirmedSeries.getD i 0 : Int) : Rat))) := by
  refine ⟨by with_unfolding_all rfl, ?_⟩
  obtain ⟨x, y, h1, h2, -⟩ := delta_reconstruction correctionSeries (by decide)
  exact ⟨x, y, h1, h2⟩

/-- Reduction of `get_data` at any window other than `-1`. -/
lemma get_data_eq_of_ne (c : CountryData) (a : Int) (h : a ≠ -1) :
    c.get_data a =
      some ((List.range ((c.data.length : Int) - a).toNat).map
          (fun (i : Nat) => (i : Int) - (first100Index c.confirmedSeries : Int)),
        (List.range ((c.data.length : Int) - a).toNat).map
          (fun (i : Nat) =>
            (((pySlice (deltasFrom 0 c.confirmedSeries) i
              ((i : Int) + a + 1)).sum : Int) : Rat) / ((a : Rat) + 1))) := by
  rw [CountryData.get_data, if_neg h]
  have hlen : (deltasFrom 0 c.confirmedSeries).length = c.data.length := by
    rw [deltasFrom_length, confirmedSeries_length]
  rw [hlen]

/-- Claim C4 counterexample: `get_data` on a region series with zero
recorded days does not fail; it returns the empty pair of sequences. -/
theorem empty_series_counterexample :
    (CountryData.mk "X" []).get_data 0 = some ([], []) := by
  with_unfolding_all rfl

/-- Claim C4 (amended): on a region series with zero recorded days,
`get_last` fails, but `get_data` succeeds and returns two empty
sequences for every non-negative window. -/
theorem empty_series_behavior (c : CountryData) (h : c.data = []) :
    c.get_last = none ∧ ∀ w : Nat, c.get_data (w : Int) = some ([], []) := by
  constructor
  · rw [CountryData.get_last]
    have hk : c.sortedKeys = [] := by
      rw [CountryData.sortedKeys, h]
      rfl
    rw [hk]
    rfl
  · intro w
    rw [get_data_nat]
    have h0 : c.data.length - w = 0 := by
      rw [h]
      simp
    rw [h0]
    rfl

/-- Instantiation of C4 (amended) on an empty region. -/
theorem empty_series_behavior_witness :
    (CountryData.mk "X" []).get_last = none ∧
    ∀ w : Nat, (CountryData.mk "X" []).get_data (w : Int) = some ([], []) :=
  empty_series_behavior (CountryData.mk "X" []) rfl

/-- Claim C5 counterexample: `get_data` at the negative window `-2` does
not fail; it returns a (meaningless) pair of sequences. -/
theorem negative_window_counterexample :
    (CountryData.mk "X" [(0, ⟨5, 0, 0⟩)]).get_data (-2) =
      some ([-1, 0, 1], [0, 0, 0]) := by
  with_unfolding_all rfl

/-- Claim C5 (amended): there is no validation of negative windows.
`get_data (-1)` fails (division by zero in the smoothing loop), but for
every window `w ≤ -2` the call returns two sequences of length `n - w`
(longer than the series itself). -/
theorem negative_window_behavior (c : CountryData) (w : Int) :
    (w = -1 → c.get_data w = none) ∧
    (w < -1 → ∃ x y, c.get_data w = some (x, y) ∧
      (x.length : Int) = (c.data.length : Int) - w ∧ y.length = x.length) := by
  constructor
  · intro hw
    rw [CountryData.get_data, if_pos hw]
  · intro hw
    refine ⟨_, _, get_data_eq_of_ne c w (by omega), ?_, ?_⟩
    · simp only [List.length_map, List.length_range]
      omega
    · simp only [List.length_map, List.length_range]

/-- Instantiation of C5 (amended) on a 1-day region at windows `-1`
and `-3`. -/
theorem negative_window_behavior_witness :
    (CountryData.mk "X" [(0, ⟨5, 0, 0⟩)]).get_data (-1) = none ∧
    (∃ x y, (CountryData.mk "X" [(0, ⟨5, 0, 0⟩)]).get_data (-3) = some (x, y) ∧
      (x.length : Int) =
        ((CountryData.mk "X" [(0, ⟨5, 0, 0⟩)]).data.length : Int) - (-3) ∧
      y.length = x.length) :=
  ⟨(negative_window_behavior (CountryData.mk "X" [(0, ⟨5, 0, 0⟩)]) (-1)).1 rfl,
   (negative_window_behavior (CountryData.mk "X" [(0, ⟨5, 0, 0⟩)]) (-3)).2
     (by norm_num)⟩

lemma fieldValue_blank (row : List (String × String)) (k : String)
    (h : pyDictGet row k = some "") : fieldValue row k = some 0 := by
  rw [fieldValue, h]
  rfl

lemma fieldValue_absent (row : List (String × String)) (k : String)
    (h : pyDictGet row k = none) : fieldValue row k = none := by
  rw [fieldValue, h]

/-- Claim C6 counterexample: a raw row whose header lacks the `Recovered`
column is not routed with the missing value read as 0 — its ingestion
fails (a `KeyError` on `dictionary["Recovered"]`). -/
theorem missing_field_counterexample :
    ingestRow (Data.mk []) 0
      [("Country/Region", "X"), ("Confirmed", "5"), ("Deaths", "")] =
      none := by
  with_unfolding_all rfl

/-- Claim C6 (amended): a present-but-blank count value is interpreted as
the integer 0 and the row is still routed into the dataset, but a count
column absent from the row altogether makes ingestion of that row fail
with a key-lookup error instead of being treated as 0. -/
theorem missing_fields_amended :
    (∀ (row : List (String × String)) (k : String),
      pyDictGet row k = some "" → fieldValue row k = some 0) ∧
    (∀ (d : Data) (day : Nat) (row : List (String × String)) (name : String),
      find_key row ["Country/Region", "Country_Region"] = some name →
      pyDictGet row "Confirmed" = some "" →
      pyDictGet row "Deaths" = some "" →
      pyDictGet row "Recovered" = some "" →
      ingestRow d day row = some (d.add (canon name) day ⟨0, 0, 0⟩)) ∧
    (∀ (d : Data) (day : Nat) (row : List (String × String)),
      pyDictGet row "Confirmed" = none → ingestRow d day row = none) := by
  refine ⟨fun row k h => fieldValue_blank row k h, ?_, ?_⟩
  · intro d day row name hn hc hd hr
    rw [ingestRow, hn, rowElement, fieldValue_blank row _ hc,
      fieldValue_blank row _ hd, fieldValue_blank row _ hr]
  · intro d day row hc
    rw [ingestRow]
    cases hn : find_key row ["Country/Region", "Country_Region"] with
    | none => rfl
    | some raw =>
      rw [rowElement, fieldValue_absent row _ hc]

/-- Instantiation of C6 (amended): a row with all three count columns
blank is routed as zeros; a row without a `Confirmed` column fails. -/
theorem missing_fields_amended_witness :
    ingestRow (Data.mk []) 3
      [("Country/Region", " US "), ("Confirmed", ""), ("Deaths", ""),
        ("Recovered", "")] =
      some ((Data.mk []).add (canon " US ") 3 ⟨0, 0, 0⟩) ∧
    ingestRow (Data.mk []) 3 [("Country_Region", "X"), ("Deaths", "7")] =
      none :=
  ⟨missing_fields_amended.2.1 (Data.mk []) 3
      [("Country/Region", " US "), ("Confirmed", ""), ("Deaths", ""),
        ("Recovered", "")] " US " rfl rfl rfl rfl,
   missing_fields_amended.2.2 (Data.mk []) 3
      [("Country_Region", "X"), ("Deaths", "7")] rfl⟩

lemma dropWhile_dropWhile {α : Type} (p : α → Bool) (l : List α) :
    (l.dropWhile p).dropWhile p = l.dropWhile p := by
  induction l with
  | nil => rfl
  | cons a t ih =>
    by_cases h : p a
    · simp only [List.dropWhile_cons, h, if_true]
      exact ih
    · simp [List.dropWhile_cons, h]

lemma dropWhile_trimRight {α : Type} (p : α → Bool) (l : List α)
    (h : l.dropWhile p = l) :
    ((l.reverse.dropWhile p).reverse).dropWhile p =
      (l.reverse.dropWhile p).reverse := by
  cases l with
  | nil => rfl
  | cons a t =>
    have ha : ¬ p a := by
      have h2 := (List.dropWhile_eq_self_iff.mp h) (by simp)
      simpa using h2
    rw [List.reverse_cons, List.dropWhile_append]
    by_cases he : (t.reverse.dropWhile p).isEmpty
    · rw [if_pos he]
      simp [List.dropWhile_cons, ha]
    · rw [if_neg he]
      rw [List.reverse_append]
      simp [List.dropWhile_cons, ha]

lemma pyStrip_idem (l : List Char) : pyStrip (pyStrip l) = pyStrip l := by
  unfold pyStrip
  have h1 : (l.dropWhile Char.isWhitespace).dropWhile Char.isWhitespace =
      l.dropWhile Char.isWhitespace := dropWhile_dropWhile _ l
  have h2 := dropWhile_trimRight Char.isWhitespace
    (l.dropWhile Char.isWhitespace) h1
  rw [h2, List.reverse_reverse, dropWhile_dropWhile]

lemma strip_idem (s : String) : strip (strip s) = strip s := by
  simp only [strip]
  rw [show (String.mk (pyStrip s.toList)).toList = pyStrip s.toList from rfl,
    pyStrip_idem]

lemma alias_values_fixed :
    ∀ kv ∈ ALIASES, strip kv.2 = kv.2 ∧ aliasLookup kv.2 = none := by
  decide

/-- Claim C9: the region-name canonicalization (trim surrounding
whitespace, then exact-match substitution through the alias table) is
idempotent. -/
theorem canonicalization_idempotent (s : String) :
    canon (canon s) = canon s := by
  cases h : aliasLookup (strip s) with
  | some v =>
    have hmem : ∃ k, (k, v) ∈ ALIASES := by
      rw [aliasLookup] at h
      cases hf : ALIASES.find? (fun kv => kv.1 == strip s) with
      | none =>
        rw [hf] at h
        simp at h
      | some kv =>
        rw [hf, Option.map_some'] at h
        refine ⟨kv.1, ?_⟩
        have hm := List.mem_of_find?_eq_some hf
        have he : kv = (kv.1, v) := by
          rw [← Option.some_inj.mp h]
        rwa [he] at hm
    obtain ⟨k, hk⟩ := hmem
    have hfix := alias_values_fixed (k, v) hk
    have hcs : canon s = v := by
      rw [canon, h]
    rw [hcs]
    show canon v = v
    rw [canon, hfix.1, hfix.2]
  | none =>
    have hcs : canon s = strip s := by
      rw [canon, h]
    rw [hcs, canon, strip_idem, h]

lemma get_countries_eq (d : Data) (hd : ∀ kv ∈ d.data, kv.2.data ≠ []) :
    d.get_countries =
      some (List.insertionSort
        (fun a b => -(latestConfirmed a) ≤ -(latestConfirmed b))
        (d.data.map Prod.snd)) := by
  rw [Data.get_countries, if_pos]
  rw [List.all_eq_true]
  intro kv hkv
  have h := hd kv hkv
  simp [List.isEmpty_iff, h]

lemma get_last_of_ne_nil (c : CountryData) (h : c.data ≠ []) :
    ∃ e, c.get_last = some e ∧ latestConfirmed c = e.confirmed := by
  have hlen : c.sortedKeys.length = c.data.length := by
    rw [CountryData.sortedKeys, List.length_insertionSort, List.length_map]
  cases hg : c.sortedKeys.getLast? with
  | none =>
    exfalso
    have h0 : c.sortedKeys = [] := by
      cases hk : c.sortedKeys with
      | nil => rfl
      | cons a t =>
        rw [hk] at hg
        simp [List.getLast?_concat] at hg
    rw [h0] at hlen
    exact h (List.length_eq_zero.mp hlen.symm)
  | some k =>
    refine ⟨c.dayData k, ?_, ?_⟩
    · rw [CountryData.get_last, hg, Option.map_some']
    · rw [latestConfirmed, CountryData.get_last, hg]
      rfl

/-- Claim C8: on a dataset in which each region has at least one recorded
day, `get_countries` returns all region series sorted by descending latest
cumulative confirmed count; and the three-region scenario (latest counts
500, 10000, 42) is returned as 10000-region, 500-region, 42-region. -/
theorem ranking_order :
    (∀ d : Data, (∀ kv ∈ d.data, kv.2.data ≠ []) →
      ∃ l, d.get_countries = some l ∧
        l.Perm (d.data.map Prod.snd) ∧
        l.Sorted (fun a b => latestConfirmed b ≤ latestConfirmed a) ∧
        (∀ c ∈ l, ∃ e, c.get_last = some e ∧
          latestConfirmed c = e.confirmed)) ∧
    scenarioData.get_countries =
      some [⟨"B", [(0, ⟨10000, 0, 0⟩)]⟩, ⟨"A", [(0, ⟨500, 0, 0⟩)]⟩,
        ⟨"C", [(0, ⟨42, 0, 0⟩)]⟩] := by
  constructor
  · intro d hd
    refine ⟨_, get_countries_eq d hd, List.perm_insertionSort _ _, ?_, ?_⟩
    · have hs := List.sorted_insertionSort
        (fun a b : CountryData =>
          -(latestConfirmed a) ≤ -(latestConfirmed b))
        (d.data.map Prod.snd)
      exact List.Pairwise.imp (fun hab => by omega) hs
    · intro c hc
      have hmem : c ∈ d.data.map Prod.snd :=
        (List.perm_insertionSort _ _).mem_iff.mp hc
      obtain ⟨kv, hkv, hkv2⟩ := List.mem_map.mp hmem
      exact hkv2 ▸ get_last_of_ne_nil kv.2 (hd kv hkv)
  · decide

/-- Instantiation of C8 on the spec scenario dataset. -/
theorem ranking_order_witness :
    (∀ kv ∈ scenarioData.data, kv.2.data ≠ []) ∧
    (∃ l, scenarioData.get_countries = some l ∧
      l.Perm (scenarioData.data.map Prod.snd) ∧
      l.Sorted (fun a b => latestConfirmed b ≤ latestConfirmed a) ∧
      (∀ c ∈ l, ∃ e, c.get_last = some e ∧
        latestConfirmed c = e.confirmed)) :=
  ⟨by decide, ranking_order.1 scenarioData (by decide)⟩

lemma filter_orderedInsert_key {α : Type} (key : α → Int) (q : α → Bool)
    (hq : ∀ x y, q x = true → q y = true → key x = key y) (a : α)
    (l : List α) :
    (List.orderedInsert (fun x y => key x ≤ key y) a l).filter q =
      if q a then a :: l.filter q else l.filter q := by
  induction l with
  | nil =>
    by_cases hqa : q a
    · simp [List.orderedInsert, List.filter, hqa]
    · simp [List.orderedInsert, List.filter, hqa]
  | cons b l ih =>
    by_cases hab : key a ≤ key b
    · rw [List.orderedInsert, if_pos hab]
      by_cases hqa : q a
      · simp [List.filter_cons, hqa]
      · simp [List.filter_cons, hqa]
    · rw [List.orderedInsert, if_neg hab]
      by_cases hqa : q a
      · have hqb : q b = false := by
          by_contra hqb
          have hqb2 : q b = true := by
            simpa using hqb
          have := hq b a hqb2 (by simpa using hqa)
          omega
        simp [List.filter_cons, hqb, ih, hqa]
      · have hqa2 : q a = false := by
          simpa using hqa
        simp [List.filter_cons, ih, hqa2]
  
lemma filter_insertionSort_key {α : Type} (key : α → Int) (q : α → Bool)
    (hq : ∀ x y, q x = true → q y = true → key x = key y) (l : List α) :
    (List.insertionSort (fun x y => key x ≤ key y) l).filter q =
      l.filter q := by
  induction l with
  | nil => rfl
  | cons a l ih =>
    rw [List.insertionSort, filter_orderedInsert_key key q hq a _, ih,
      List.filter_cons]

/-- Claim C10: ranking is deterministic with a stable tie-break.  For any
fixed tie value `k`, the regions of the ranked output whose latest
confirmed count is `k` appear in exactly the order they hold in the
insertion-ordered region mapping; and `Data.add` appends a region on first
creation and otherwise preserves the key order, so that order is creation
order. -/
theorem ranking_tie_break (d : Data)
    (hd : ∀ kv ∈ d.data, kv.2.data ≠ []) (k : Int) :
    (∃ l, d.get_countries = some l ∧
      l.filter (fun c => latestConfirmed c == k) =
        (d.data.map Prod.snd).filter (fun c => latestConfirmed c == k)) ∧
    (∀ (d2 : Data) (name : String) (t : Nat) (e : DataElement),
      (d2.add name t e).data.map Prod.fst =
        if d2.data.any (fun kv => kv.1 == name) then d2.data.map Prod.fst
        else d2.data.map Prod.fst ++ [name]) := by
  constructor
  · refine ⟨_, get_countries_eq d hd, ?_⟩
    apply filter_insertionSort_key (fun c => -(latestConfirmed c))
      (fun c => latestConfirmed c == k)
    intro x y hx hy
    simp only [beq_iff_eq] at hx hy
    rw [hx, hy]
  · intro d2 name t e
    by_cases hmem : d2.data.any (fun kv => kv.1 == name)
    · rw [Data.add, if_pos hmem, if_pos hmem]
      show (d2.data.map _).map Prod.fst = d2.data.map Prod.fst
      rw [List.map_map]
      apply List.map_congr_left
      intro kv hkv
      show (if (kv.1 == name) = true then (kv.1, kv.2.add t e) else kv).1 = kv.1
      split
      · rfl
      · rfl
    · rw [Data.add, if_neg hmem, if_neg hmem]
      show (d2.data ++ _).map Prod.fst = d2.data.map Prod.fst ++ [name]
      simp

/-- Instantiation of C10 on a dataset with two tied regions (latest
confirmed count 7 each): the ranked output keeps their creation order. -/
theorem ranking_tie_break_witness :
    tieData.get_countries =
      some [⟨"P", [(0, ⟨7, 0, 0⟩)]⟩, ⟨"Q", [(0, ⟨7, 0, 0⟩)]⟩] ∧
    ((∃ l, tieData.get_countries = some l ∧
      l.filter (fun c => latestConfirmed c == 7) =
        (tieData.data.map Prod.snd).filter
          (fun c => latestConfirmed c == 7)) ∧
    (∀ (d2 : Data) (name : String) (t : Nat) (e : DataElement),
      (d2.add name t e).data.map Prod.fst =
        if d2.data.any (fun kv => kv.1 == name) then d2.data.map Prod.fst
        else d2.data.map Prod.fst ++ [name])) :=
  ⟨by decide, ranking_tie_break tieData (by decide) 7⟩

end Covid
